import Mathlib

/-!
# Verification of the clustering / trending pipeline

Shallow embedding, in Lean 4, of the core of the `backend` news-aggregation
pipeline (`app/workers/tasks.py`, `app/services/trending.py`,
`app/models/*.py`), together with theorems settling the frozen claims about
it.

Modelling conventions:
* machine integers and 64-bit hash words are `Nat` with explicit `% 2 ^ 64`
  where overflow matters;
* Python floats (similarities, velocities, scores, thresholds) are modelled
  as `ℚ`: every arithmetic operation the code performs on them
  (comparison, `+`, `*`, `abs`, `/`) is exact on the values involved;
* timestamps (`datetime`) are modelled as `ℚ` seconds since an arbitrary
  epoch; `timedelta(hours=h)` becomes `h * 3600`;
* database tables are lists of records, a SQL `SELECT ... LIMIT 1`
  (`scalar_one_or_none`) becomes `List.find?`, an `INSERT` an append, and a
  composite-primary-key violation an `Except.error`;
* external collaborators (the pgvector `<=>` cosine-distance operator, the
  Mistral embedder) are abstracted as function parameters, exactly at the
  boundary where the Python code receives their output.
-/

set_option maxRecDepth 100000

namespace Backend

section

/- The Batteries rational-number operations are `@[irreducible]`; making
them semireducible inside this file lets `decide` evaluate the models on
concrete rational inputs (the kernel itself never treats them as
opaque). -/
attribute [local semireducible] Rat.add Rat.sub Rat.mul Rat.inv Rat.ofScientific

/-! ## 4.A Content fingerprint (`tasks.py`)

`_hamming_distance` (tasks.py lines 47–50) is `(left ^ right).bit_count()`.
`content_hash` (tasks.py lines 173–176) is
`hashlib.blake2b(text_content.encode("utf-8"), digest_size=8).digest()`:
BLAKE2b (RFC 7693) with no key and digest-size parameter 8.
-/

/-- Number of set bits of a natural number, by structural recursion on a
fuel argument so that the kernel can evaluate it (`n` halves each step, so
fuel `n` is always enough). -/
def popcountAux : Nat → Nat → Nat
  | 0, _ => 0
  | fuel + 1, n => if n = 0 then 0 else n % 2 + popcountAux fuel (n / 2)

/-- Number of set bits of a natural number (Python `int.bit_count`). -/
def popcount (n : Nat) : Nat := popcountAux n n

/-- `_hamming_distance(left, right) = (left ^ right).bit_count()` (tasks.py 47–50). -/
def hamming_distance (left right : Nat) : Nat :=
  popcount (left ^^^ right)

/-- 2^64, the modulus of 64-bit machine arithmetic. -/
def M64 : Nat := 2 ^ 64

/-- Rotate a 64-bit word right by `n` (0 < n < 64). -/
def rotr64 (x n : Nat) : Nat :=
  ((x >>> n) ||| (x <<< (64 - n))) % M64

/-- Word `i` of a state vector (out-of-range reads return 0; all accesses
in the algorithm are in range). -/
def wget (v : List Nat) (i : Nat) : Nat := v.getD i 0

/-- Set word `i` of a state vector. -/
def wset (v : List Nat) (i x : Nat) : List Nat := v.set i x

/-- The BLAKE2b initialisation vector (RFC 7693 §2.6). -/
def blake2bIV : List Nat :=
  [0x6a09e667f3bcc908, 0xbb67ae8584caa73b, 0x3c6ef372fe94f82b,
   0xa54ff53a5f1d36f1, 0x510e527fade682d1, 0x9b05688c2b3e6c1f,
   0x1f83d9abfb41bd6b, 0x5be0cd19137e2179]

/-- The BLAKE2 message-schedule permutations (RFC 7693 §2.7). -/
def blake2bSigma : List (List Nat) :=
  [[0, 1, 2, 3, 4, 5, 6, 7, 8, 9, 10, 11, 12, 13, 14, 15],
   [14, 10, 4, 8, 9, 15, 13, 6, 1, 12, 0, 2, 11, 7, 5, 3],
   [11, 8, 12, 0, 5, 2, 15, 13, 10, 14, 3, 6, 7, 1, 9, 4],
   [7, 9, 3, 1, 13, 12, 11, 14, 2, 6, 5, 10, 4, 0, 15, 8],
   [9, 0, 5, 7, 2, 4, 10, 15, 14, 1, 11, 12, 6, 8, 3, 13],
   [2, 12, 6, 10, 0, 11, 8, 3, 4, 13, 7, 5, 15, 14, 1, 9],
   [12, 5, 1, 15, 14, 13, 4, 10, 0, 7, 6, 3, 9, 2, 8, 11],
   [13, 11, 7, 14, 12, 1, 3, 9, 5, 0, 15, 4, 8, 6, 2, 10],
   [6, 15, 14, 9, 11, 3, 0, 8, 12, 2, 13, 7, 1, 4, 10, 5],
   [10, 2, 8, 4, 7, 6, 1, 5, 15, 11, 9, 14, 3, 12, 13, 0]]

/-- The BLAKE2b mixing function G (RFC 7693 §3.1). -/
def gMix (v : List Nat) (a b c d x y : Nat) : List Nat :=
  let va := (wget v a + wget v b + x) % M64
  let vd := rotr64 (wget v d ^^^ va) 32
  let vc := (wget v c + vd) % M64
  let vb := rotr64 (wget v b ^^^ vc) 24
  let va2 := (va + vb + y) % M64
  let vd2 := rotr64 (vd ^^^ va2) 16
  let vc2 := (vc + vd2) % M64
  let vb2 := rotr64 (vb ^^^ vc2) 63
  wset (wset (wset (wset v a va2) b vb2) c vc2) d vd2

/-- One BLAKE2b round on the work vector, using message words `m`. -/
def blake2bRound (m v : List Nat) (i : Nat) : List Nat :=
  let s := blake2bSigma.getD (i % 10) []
  let mg := fun j => m.getD (s.getD j 0) 0
  let v1 := gMix v 0 4 8 12 (mg 0) (mg 1)
  let v2 := gMix v1 1 5 9 13 (mg 2) (mg 3)
  let v3 := gMix v2 2 6 10 14 (mg 4) (mg 5)
  let v4 := gMix v3 3 7 11 15 (mg 6) (mg 7)
  let v5 := gMix v4 0 5 10 15 (mg 8) (mg 9)
  let v6 := gMix v5 1 6 11 12 (mg 10) (mg 11)
  let v7 := gMix v6 2 7 8 13 (mg 12) (mg 13)
  gMix v7 3 4 9 14 (mg 14) (mg 15)

/-- The BLAKE2b compression function F (RFC 7693 §3.2): 12 rounds. -/
def blake2bCompress (h m : List Nat) (t : Nat) (last : Bool) : List Nat :=
  let v0 := h ++ blake2bIV
  let v1 := wset v0 12 (wget v0 12 ^^^ (t % M64))
  let v2 := wset v1 13 (wget v1 13 ^^^ (t >>> 64 % M64))
  let v3 := if last then wset v2 14 (wget v2 14 ^^^ (M64 - 1)) else v2
  let vf := (List.range 12).foldl (blake2bRound m) v3
  (List.range 8).map (fun i => wget h i ^^^ wget vf i ^^^ wget vf (i + 8))

/-- Interpret a byte list as a little-endian natural number. -/
def leWord (bytes : List Nat) : Nat :=
  bytes.foldr (fun b acc => acc * 256 + b) 0

/-- Split a 128-byte block into its 16 little-endian 64-bit message words. -/
def blockWords (block : List Nat) : List Nat :=
  (List.range 16).map (fun i => leWord ((block.drop (8 * i)).take 8))

/-- Zero-pad a byte list to 128 bytes. -/
def padBlock (l : List Nat) : List Nat := l ++ List.replicate (128 - l.length) 0

/-- Block splitting, by structural recursion on a fuel argument so that the
kernel can evaluate it (each step removes 128 bytes, so fuel `data.length`
is always enough). -/
def toBlocksAux : Nat → List Nat → List (List Nat)
  | 0, data => [padBlock data]
  | fuel + 1, data =>
    if data.length ≤ 128 then [padBlock data]
    else padBlock (data.take 128) :: toBlocksAux fuel (data.drop 128)

/-- Split a byte stream into 128-byte blocks, zero-padding the last one.
An empty stream yields a single all-zero block (RFC 7693 §3.3). -/
def toBlocks (data : List Nat) : List (List Nat) := toBlocksAux data.length data

/-- The 8 little-endian bytes of a 64-bit word. -/
def wordBytes (w : Nat) : List Nat :=
  (List.range 8).map (fun j => w >>> (8 * j) % 256)

/-- BLAKE2b (RFC 7693 §3.3): `key` and `data` are byte lists, `nn` the
digest length in bytes.  `hashlib.blake2b(data, digest_size=nn, key=key)`
computes exactly this (the parameter block, with digest length `nn` and key
length `kk`, is XORed into the first state word, so digests of different
lengths are unrelated hashes, not truncations of one another).
This function computes the final 8-word state. -/
def blake2bFinalState (key data : List Nat) (nn : Nat) : List Nat :=
  let kk := key.length
  let h1 := wset blake2bIV 0 (wget blake2bIV 0 ^^^ (0x01010000 ^^^ (kk <<< 8) ^^^ nn))
  let input := if kk = 0 then data else padBlock key ++ data
  let blocks := toBlocks input
  let dd := blocks.length
  let tLast := if kk = 0 then data.length else data.length + 128
  (List.range dd).foldl
    (fun h i =>
      let m := blockWords (blocks.getD i [])
      if i = dd - 1 then blake2bCompress h m tLast true
      else blake2bCompress h m ((i + 1) * 128) false)
    h1

/-- BLAKE2b digest: the first `nn` bytes of the little-endian serialisation
of the final state. -/
def blake2b (key data : List Nat) (nn : Nat) : List Nat :=
  ((blake2bFinalState key data nn).map wordBytes).flatten.take nn

/-- UTF-8 encoding of a Unicode code point (RFC 3629). -/
def utf8EncodeCodepoint (n : Nat) : List Nat :=
  if n < 0x80 then [n]
  else if n < 0x800 then
    [0xC0 ||| (n >>> 6), 0x80 ||| (n &&& 0x3F)]
  else if n < 0x10000 then
    [0xE0 ||| (n >>> 12), 0x80 ||| (n >>> 6 &&& 0x3F), 0x80 ||| (n &&& 0x3F)]
  else
    [0xF0 ||| (n >>> 18), 0x80 ||| (n >>> 12 &&& 0x3F),
     0x80 ||| (n >>> 6 &&& 0x3F), 0x80 ||| (n &&& 0x3F)]

/-- UTF-8 encoding of a string (Python `str.encode("utf-8")`). -/
def utf8Encode (s : String) : List Nat :=
  s.data.flatMap (fun c => utf8EncodeCodepoint c.toNat)

/-- `content_hash` as computed at tasks.py lines 173–176:
`hashlib.blake2b(text_content.encode("utf-8"), digest_size=8).digest()` —
BLAKE2b with **no key** and digest-size parameter 8. -/
def content_hash (textBytes : List Nat) : List Nat := blake2b [] textBytes 8

/-- The spec's description of `content_hash` taken at its word
("BLAKE2b keyed truncated to 8 bytes over UTF-8 of the extracted plain
text"): the first 8 bytes of the full-length (64-byte) BLAKE2b digest.
The spec names no key, and `hashlib.blake2b`'s default key is empty, so the
key here is empty as well. -/
def content_hash_claimed (textBytes : List Nat) : List Nat :=
  (blake2b [] textBytes 64).take 8

/-! ## 4.B Article store (`process_article_url`, tasks.py 77–236)

The fetch / extraction / date-parsing steps call external collaborators
(httpx, trafilatura, dateutil) and are out of scope per spec §1; the model
starts where the code has a non-empty `text_content` and computes
fingerprints.  The SimHash of the text is produced by the external
`simhash` library (`Simhash(text_content, f=64).value`) and is therefore a
parameter, exactly as the embedding vector is; `content_hash` is computed
by the code itself (hashlib) and is part of the model. -/

/-- An `articles` row (the columns the dedup/insert path reads or writes;
`created_at` is the ingestion time). -/
structure ArticleM where
  id : Nat
  source_id : Nat
  url : String
  simhash_64 : Option Nat
  hash_64 : List Nat
  text_content : String
  created_at : ℚ
deriving DecidableEq

/-- Result of `process_article_url`'s store interaction. -/
inductive InsertOutcome where
  | duplicate (article_id : Nat)
  | stored (article_id : Nat)
deriving DecidableEq

/-- Follow-up Celery jobs submitted by `process_article_url`. -/
inductive Job where
  | embedAndCluster (article_id : Nat)
  | searchIndex (article_id : Nat)
deriving DecidableEq

/-- The store interaction of `process_article_url` (tasks.py 172–236):
compute fingerprints, check URL uniqueness (`select(Article).where(url)`),
scan the source's non-null simhashes for Hamming distance ≤ 3, and on a
fresh article insert it, commit, and enqueue the embed-and-cluster and
search-index jobs.  `next_id` stands for the database-assigned serial id
and `now` for the server-side `created_at` default. -/
def process_article_store (db : List ArticleM) (source_id : Nat)
    (url text_content : String) (simhash_value next_id : Nat) (now : ℚ) :
    InsertOutcome × List ArticleM × List Job :=
  match db.find? (fun a => a.url == url) with
  | some existing => (.duplicate existing.id, db, [])
  | none =>
    let candidates := db.filter (fun a =>
      a.source_id == source_id && a.simhash_64.isSome)
    match candidates.find? (fun a =>
        decide (hamming_distance (a.simhash_64.getD 0) simhash_value ≤ 3)) with
    | some dup => (.duplicate dup.id, db, [])
    | none =>
      let article : ArticleM :=
        { id := next_id, source_id := source_id, url := url,
          simhash_64 := some simhash_value,
          hash_64 := content_hash (utf8Encode text_content),
          text_content := text_content, created_at := now }
      (.stored next_id, db ++ [article],
       [Job.embedAndCluster next_id, Job.searchIndex next_id])

/-! ## 4.C/4.D/4.G Embedding store, cluster state, and the
embed-and-cluster worker (`_embed_and_cluster_article_async`,
tasks.py 315–569)

The pgvector cosine-distance operator `<=>` and the Mistral embedder are
external: the distance function `dist` and the freshly generated vector
`freshVec` are parameters.  The SQL kNN query (tasks.py 424–456) is the
filter / order-by / limit over the joined tables; similarity is reported
as `1 - distance`, exactly as the query computes it.  Phase 3 (the
summarisation trigger) only submits a queue job and writes nothing. -/

/-- An `article_embeddings` row (composite key `(space_id, article_id)`). -/
structure EmbeddingM where
  space_id : Nat
  article_id : Nat
  vec : List ℚ
deriving DecidableEq

/-- A `cluster_runs` row; `threshold?` is `params.get("threshold")`
(`none` when the JSON parameter map has no such key). -/
structure ClusterRunM where
  id : Nat
  space_id : Nat
  threshold? : Option ℚ
  is_active : Bool
deriving DecidableEq

/-- A `clusters` row. -/
structure ClusterM where
  id : Nat
  run_id : Nat
  window_start : Option ℚ
  window_end : Option ℚ
deriving DecidableEq

/-- An `article_clusters` row (composite primary key
`(run_id, cluster_id, article_id)`, models/cluster.py 160–181). -/
structure AssignM where
  run_id : Nat
  cluster_id : Nat
  article_id : Nat
  similarity : ℚ
deriving DecidableEq

/-- The slice of the database the embed-and-cluster worker touches. -/
structure ClusterState where
  articles : List ArticleM
  embeddings : List EmbeddingM
  runs : List ClusterRunM
  clusters : List ClusterM
  assignments : List AssignM
  nextClusterId : Nat
deriving DecidableEq

/-- A row of the kNN query result (tasks.py 424–437). -/
structure KnnRow where
  article_id : Nat
  distance : ℚ
  similarity : ℚ
  created_at : ℚ
deriving DecidableEq

/-- `active_run`: the run with `is_active` for the space
(tasks.py 400–406, `scalar_one_or_none`). -/
def active_run (st : ClusterState) (space_id : Nat) : Option ClusterRunM :=
  st.runs.find? (fun r => r.space_id == space_id && r.is_active)

/-- `cluster_of`: the cluster of a (run, article) assignment if any
(tasks.py 464–470). -/
def cluster_of (st : ClusterState) (run_id article_id : Nat) : Option Nat :=
  (st.assignments.find? (fun a =>
    a.run_id == run_id && a.article_id == article_id)).map (fun a => a.cluster_id)

/-- The kNN query (tasks.py 424–456): join embeddings of the space with
articles, keep `created_at >= window_start` and `article_id != exclude`,
order by ascending cosine distance, `LIMIT 5`; similarity is
`1 - distance`. -/
def knn (st : ClusterState) (dist : List ℚ → List ℚ → ℚ) (target : List ℚ)
    (space_id : Nat) (window_start : ℚ) (exclude : Nat) : List KnnRow :=
  let joined := st.embeddings.filterMap (fun e =>
    if e.space_id == space_id && e.article_id != exclude then
      match st.articles.find? (fun a => a.id == e.article_id) with
      | some a =>
        if window_start ≤ a.created_at then
          some ⟨e.article_id, dist target e.vec, 1 - dist target e.vec, a.created_at⟩
        else none
      | none => none
    else none)
  (joined.insertionSort (fun r1 r2 => r1.distance ≤ r2.distance)).take 5

/-- The neighbour loop (tasks.py 462–485): walk the kNN rows in order and
take the first with `similarity >= threshold` that has an assignment in
the run; a row above threshold without an assignment is skipped, not a
stop. -/
def findClusterLoop (st : ClusterState) (run_id : Nat) (threshold : ℚ) :
    List KnnRow → Option (Nat × ℚ)
  | [] => none
  | r :: rest =>
    if threshold ≤ r.similarity then
      match cluster_of st run_id r.article_id with
      | some c => some (c, r.similarity)
      | none => findClusterLoop st run_id threshold rest
    else findClusterLoop st run_id threshold rest

/-- `session.add(ArticleCluster(...)); session.commit()` (tasks.py
510–518): the INSERT succeeds unless the composite primary key
`(run_id, cluster_id, article_id)` already exists, in which case the
commit raises `IntegrityError` (the code has no guard or handler for it). -/
def insert_assignment (assignments : List AssignM) (a : AssignM) :
    Except Unit (List AssignM) :=
  if assignments.any (fun x => x.run_id == a.run_id && x.cluster_id == a.cluster_id &&
      x.article_id == a.article_id)
  then .error () else .ok (assignments ++ [a])

/-- Phase 1 (tasks.py 343–396): reuse the `(space, article)` embedding if
present, otherwise persist the freshly generated vector `freshVec`. -/
def phase1 (st : ClusterState) (space_id article_id : Nat) (freshVec : List ℚ) :
    List ℚ × ClusterState :=
  match st.embeddings.find? (fun e =>
      e.space_id == space_id && e.article_id == article_id) with
  | some e => (e.vec, st)
  | none =>
    (freshVec,
     { st with embeddings := st.embeddings ++ [⟨space_id, article_id, freshVec⟩] })

/-- `_embed_and_cluster_article_async` (tasks.py 321–569), from article
load to the assignment commit.  `threshold = run.params.get("threshold",
0.8)` (tasks.py 417); the kNN window is `now - 48h` (tasks.py 420); on no
qualifying neighbour a new cluster is created with `window_start =
window_end = article.created_at` and similarity `1.0` (tasks.py 488–507).
Returns the updated state and the assigned cluster id, or `Except.error`
when the assignment INSERT violates the composite primary key. -/
def embed_and_cluster (st : ClusterState) (dist : List ℚ → List ℚ → ℚ)
    (article_id : Nat) (freshVec : List ℚ) (now : ℚ) (space_id : Nat) :
    Except Unit (ClusterState × Option Nat) :=
  match st.articles.find? (fun a => a.id == article_id) with
  | none => .ok (st, none)
  | some article =>
    if article.text_content = "" then .ok (st, none)
    else
      match phase1 st space_id article_id freshVec with
      | (vec, st1) =>
        match active_run st1 space_id with
        | none => .ok (st1, none)
        | some run =>
          let threshold := run.threshold?.getD (4 / 5)
          let rows := knn st1 dist vec space_id (now - 172800) article_id
          match findClusterLoop st1 run.id threshold rows with
          | some (c, s) =>
            match insert_assignment st1.assignments ⟨run.id, c, article_id, s⟩ with
            | .error e => .error e
            | .ok asg => .ok ({ st1 with assignments := asg }, some c)
          | none =>
            let cid := st1.nextClusterId
            match insert_assignment st1.assignments ⟨run.id, cid, article_id, 1⟩ with
            | .error e => .error e
            | .ok asg =>
              .ok ({ st1 with
                      clusters := st1.clusters ++
                        [⟨cid, run.id, some article.created_at, some article.created_at⟩],
                      assignments := asg,
                      nextClusterId := cid + 1 }, some cid)

/-! ## 4.K Summariser persistence (`_summarize_cluster_async`,
tasks.py 588–689)

The LLM call is external; the model covers the success path's store
interaction: compute `next_version = (max(existing) or 0) + 1`, set
`is_active = false` on every row of the cluster, insert the new row with
`is_active = true`, commit. -/

/-- A `cluster_summaries` row (the columns the swap reads or writes). -/
structure ClusterSummaryM where
  id : Nat
  cluster_id : Nat
  version : Nat
  is_active : Bool
deriving DecidableEq

/-- `SELECT max(version) WHERE cluster_id = ...` with SQL `NULL` mapped to
0 (`(max_version or 0)`, tasks.py 641–646). -/
def max_version (summaries : List ClusterSummaryM) (cluster_id : Nat) : Nat :=
  (summaries.filter (fun s => s.cluster_id == cluster_id)).foldl
    (fun acc s => max acc s.version) 0

/-- The persistence step of `_summarize_cluster_async` on success
(tasks.py 640–676): deactivate every summary of the cluster, then append
the new row with `version = max(existing) + 1` and `is_active = true`.
`new_id` stands for the database-assigned serial id. -/
def summarize_cluster_store (summaries : List ClusterSummaryM)
    (cluster_id new_id : Nat) : List ClusterSummaryM :=
  let next_version := max_version summaries cluster_id + 1
  let deactivated := summaries.map (fun s =>
    if s.cluster_id == cluster_id then { s with is_active := false } else s)
  deactivated ++
    [{ id := new_id, cluster_id := cluster_id, version := next_version,
       is_active := true }]

/-! ## 4.H/4.I Trend metrics and event detection
(`services/trending.py`, `_detect_events_async` in tasks.py 791–930) -/

/-- A `trend_metrics` row (primary key `(ts, cluster_id, run_id)`). -/
structure TrendMetricM where
  ts : ℚ
  cluster_id : Nat
  run_id : Nat
  doc_count : Option Nat
  unique_sources : Option Nat
  velocity : Option ℚ
  acceleration : Option ℚ
  novelty : Option ℚ
deriving DecidableEq

/-- `ORDER BY ts DESC LIMIT 1`: the row with the greatest `ts`
(ties cannot arise for one (cluster, run): `ts` is part of the key). -/
def most_recent : List TrendMetricM → Option TrendMetricM
  | [] => none
  | m :: rest =>
    match most_recent rest with
    | none => some m
    | some m2 => if m.ts < m2.ts then some m2 else some m

/-- `calculate_acceleration` (trending.py 103–159): previous = most
recent metric of (cluster, run) with `ts < timestamp` and
`ts >= timestamp - 2h`; 0 when absent or its velocity is NULL; otherwise
`(current_velocity - previous.velocity) / Δt_hours`. -/
def calculate_acceleration (metrics : List TrendMetricM)
    (cluster_id run_id : Nat) (current_velocity : ℚ) (timestamp : ℚ) : ℚ :=
  let two_hours_ago := timestamp - 7200
  let qualifying := metrics.filter (fun m =>
    m.cluster_id == cluster_id && m.run_id == run_id &&
    decide (m.ts < timestamp) && decide (two_hours_ago ≤ m.ts))
  match most_recent qualifying with
  | none => 0
  | some previous =>
    match previous.velocity with
    | none => 0
    | some pv =>
      let time_delta := (timestamp - previous.ts) / 3600
      if time_delta = 0 then 0
      else (current_velocity - pv) / time_delta

/-- `detect_anomaly` (trending.py 162–228): suppress when
`doc_count < 3`; `score = velocity + 2 * abs(acceleration)`; anomaly iff
`velocity >= 3` or `acceleration >= 2`; severity ladder on velocity. -/
def detect_anomaly (velocity acceleration : ℚ) (doc_count : Nat) :
    Bool × ℚ × String :=
  if doc_count < 3 then (false, 0, "low")
  else
    let score := velocity + 2 * |acceleration|
    if ¬(3 ≤ velocity ∨ 2 ≤ acceleration) then (false, score, "low")
    else if 30 ≤ velocity then (true, score, "critical")
    else if 15 ≤ velocity then (true, score, "high")
    else if 7 ≤ velocity then (true, score, "medium")
    else (true, score, "low")

/-- An `events` row. -/
structure EventM where
  id : Nat
  run_id : Nat
  cluster_id : Nat
  detected_at : ℚ
  score : ℚ
  severity : String
  label : String
  window_start : ℚ
  window_end : ℚ
deriving DecidableEq

/-- The JSON message published on the `"events"` Redis channel
(tasks.py 903–912). -/
structure EventMsg where
  event_id : Nat
  cluster_id : Nat
  severity : String
  label : String
  score : ℚ
  detected_at : ℚ
deriving DecidableEq

/-- State threaded through one detector run: the `events` table, the
messages published on the bus during this run, and the id sequence. -/
structure DetectState where
  events : List EventM
  published : List EventMsg
  nextEventId : Nat
deriving DecidableEq

/-- Python's `"%.0f"` rounding of a (finite) float: round half to even. -/
def roundHalfEven (q : ℚ) : ℤ :=
  let f := ⌊q⌋
  let r := q - f
  if r < 1 / 2 then f
  else if 1 / 2 < r then f + 1
  else if f % 2 = 0 then f else f + 1

/-- The event label `f"Trending: {velocity:.0f} articles/h"`
(tasks.py 893); the velocities the pipeline produces are non-negative, so
the `-0` float-formatting corner cannot arise. -/
def mkLabel (velocity : ℚ) : String :=
  "Trending: " ++ toString (roundHalfEven velocity) ++ " articles/h"

/-- The per-cluster body of the detector loop (tasks.py 848–915):
cooldown check (skip when any event of the cluster has
`detected_at >= timestamp - 30m`; pending rows of this run are visible to
the query), anomaly detection on the metric's values with NULLs mapped to
0, then persist the event and publish its message. -/
def detect_step (timestamp : ℚ) (st : DetectState) (p : Nat × TrendMetricM) :
    DetectState :=
  let cluster_id := p.1
  let metric := p.2
  let thirty_mins_ago := timestamp - 1800
  if st.events.any (fun e =>
      e.cluster_id == cluster_id && decide (thirty_mins_ago ≤ e.detected_at))
  then st
  else
    let velocity := metric.velocity.getD 0
    match detect_anomaly velocity (metric.acceleration.getD 0)
        (metric.doc_count.getD 0) with
    | (false, _, _) => st
    | (true, score, severity) =>
      let event : EventM :=
        { id := st.nextEventId, run_id := metric.run_id,
          cluster_id := cluster_id, detected_at := timestamp, score := score,
          severity := severity, label := mkLabel velocity,
          window_start := metric.ts - 3600, window_end := metric.ts }
      { events := st.events ++ [event],
        published := st.published ++
          [{ event_id := event.id, cluster_id := event.cluster_id,
             severity := event.severity, label := event.label,
             score := event.score, detected_at := event.detected_at }],
        nextEventId := st.nextEventId + 1 }

/-- `ORDER BY ts DESC` over the recent metrics (tasks.py 826–830). -/
def sortTsDesc (ms : List TrendMetricM) : List TrendMetricM :=
  ms.insertionSort (fun a b => b.ts ≤ a.ts)

/-- The grouping loop (tasks.py 841–844): walk the (descending-`ts`) rows
and keep the first row seen per cluster. -/
def groupLatest (ms : List TrendMetricM) : List (Nat × TrendMetricM) :=
  ms.foldl (fun acc m =>
    if acc.any (fun p => p.1 == m.cluster_id) then acc
    else acc ++ [(m.cluster_id, m)]) []

/-- `_detect_events_async` (tasks.py 804–930): take the metrics of the
last hour, keep the latest per cluster, and run the detector body for
each.  The run starts with an empty published-message list. -/
def detect_events (events : List EventM) (nextEventId : Nat) (timestamp : ℚ)
    (metrics : List TrendMetricM) : DetectState :=
  let one_hour_ago := timestamp - 3600
  let recent := sortTsDesc (metrics.filter (fun m => decide (one_hour_ago ≤ m.ts)))
  (groupLatest recent).foldl (detect_step timestamp) ⟨events, [], nextEventId⟩

/-- Spec §8 property 8, the 30-minute cooldown invariant: no two events of
one cluster are less than 30 minutes apart. -/
def eventGapOK (events : List EventM) : Prop :=
  List.Pairwise (fun e1 e2 =>
    e1.cluster_id = e2.cluster_id → 1800 ≤ |e1.detected_at - e2.detected_at|)
    events

/-- Spec §8 property 7 together with the §4.I emission contract: every
message published on the `"events"` topic during a detector run has a
persisted Event row matching its `(id, cluster_id, severity, score)` (and
label and detection time), and that row's label and window come from the
metric that triggered it: label `"Trending: {velocity:.0f} articles/h"`
and window `[metric.ts - 1h, metric.ts]`. -/
def published_matches_persisted (metrics : List TrendMetricM)
    (st : DetectState) : Prop :=
  ∀ msg ∈ st.published,
    ∃ e ∈ st.events,
      e.id = msg.event_id ∧ e.cluster_id = msg.cluster_id ∧
      e.severity = msg.severity ∧ e.score = msg.score ∧
      e.label = msg.label ∧ e.detected_at = msg.detected_at ∧
      ∃ m ∈ metrics, e.label = mkLabel (m.velocity.getD 0) ∧
        e.window_start = m.ts - 3600 ∧ e.window_end = m.ts

/-- The severity ladder of spec §4.I, as a function of velocity. -/
def severity_by_velocity (velocity : ℚ) : String :=
  if 30 ≤ velocity then "critical"
  else if 15 ≤ velocity then "high"
  else if 7 ≤ velocity then "medium"
  else "low"

/-- Spec §4.K invariant: at most one active summary per cluster. -/
def activeAtMostOne (summaries : List ClusterSummaryM) (cluster_id : Nat) : Prop :=
  List.Pairwise (fun s1 s2 =>
    s1.cluster_id = cluster_id → s2.cluster_id = cluster_id →
    ¬(s1.is_active = true ∧ s2.is_active = true)) summaries

/-- Decidable equality for `Except`, so that outcomes of fallible
operations can be evaluated on concrete inputs. -/
instance {ε α : Type} [DecidableEq ε] [DecidableEq α] :
    DecidableEq (Except ε α) := fun a b =>
  match a, b with
  | .error e1, .error e2 =>
    match decEq e1 e2 with
    | isTrue h => isTrue (by rw [h])
    | isFalse h => isFalse (by intro hc; cases hc; exact h rfl)
  | .ok v1, .ok v2 =>
    match decEq v1 v2 with
    | isTrue h => isTrue (by rw [h])
    | isFalse h => isFalse (by intro hc; cases hc; exact h rfl)
  | .error _, .ok _ => isFalse (by intro hc; cases hc)
  | .ok _, .error _ => isFalse (by intro hc; cases hc)

/-- A sample stored article row, used to instantiate theorems on concrete
inputs. -/
def sampleArticle : ArticleM :=
  { id := 1, source_id := 5, url := "u1", simhash_64 := some 6,
    hash_64 := [], text_content := "t", created_at := 0 }

/-- A sample trend-metric row (cluster 7, run 3, at ts 0, velocity 4),
used to instantiate theorems on concrete inputs. -/
def sampleMetric : TrendMetricM :=
  { ts := 0, cluster_id := 7, run_id := 3, doc_count := some 5,
    unique_sources := some 2, velocity := some 4, acceleration := some 0,
    novelty := some 1 }

/-- A second sample stored article row (id 2, same source). -/
def sampleArticle2 : ArticleM :=
  { id := 2, source_id := 5, url := "u2", simhash_64 := some 0,
    hash_64 := [], text_content := "t", created_at := 0 }

/-- A cluster state holding one already-assigned article (id 1, alone in
embedding space 7 under active run 3, assigned to cluster 10). -/
def replayStateAlone : ClusterState :=
  { articles := [sampleArticle],
    embeddings := [⟨7, 1, [1]⟩],
    runs := [⟨3, 7, none, true⟩],
    clusters := [⟨10, 3, some 0, some 0⟩],
    assignments := [⟨3, 10, 1, 1⟩],
    nextClusterId := 11 }

/-- A cluster state holding two articles both assigned to cluster 10 of
active run 3 and both embedded in space 7. -/
def replayStatePair : ClusterState :=
  { articles := [sampleArticle, sampleArticle2],
    embeddings := [⟨7, 1, [1]⟩, ⟨7, 2, [1]⟩],
    runs := [⟨3, 7, none, true⟩],
    clusters := [⟨10, 3, some 0, some 0⟩],
    assignments := [⟨3, 10, 1, 1⟩, ⟨3, 10, 2, 1⟩],
    nextClusterId := 11 }

/-- A cluster state where article 2 is embedded and assigned to cluster
10 of active run 3, and article 1 is stored but not yet embedded nor
assigned. -/
def assignState : ClusterState :=
  { articles := [sampleArticle, sampleArticle2],
    embeddings := [⟨7, 2, [1]⟩],
    runs := [⟨3, 7, none, true⟩],
    clusters := [⟨10, 3, some 0, some 0⟩],
    assignments := [⟨3, 10, 2, 1⟩],
    nextClusterId := 11 }

/-- `assignState` after phase 1 persisted the fresh embedding of
article 1. -/
def assignState1 : ClusterState :=
  { assignState with embeddings := assignState.embeddings ++ [⟨7, 1, [1]⟩] }

/-- A sample trending metric (cluster 7, run 3, ts 900, 5 documents,
velocity 10), used to instantiate theorems on concrete inputs. -/
def sampleMetricHot : TrendMetricM :=
  { ts := 900, cluster_id := 7, run_id := 3, doc_count := some 5,
    unique_sources := some 2, velocity := some 10, acceleration := some 0,
    novelty := some 1 }

/-- A sample event row (cluster 9, detected at time 0), used to
instantiate theorems on concrete inputs. -/
def sampleEvent : EventM :=
  { id := 1, run_id := 3, cluster_id := 9, detected_at := 0, score := 5,
    severity := "low", label := "Trending: 5 articles/h",
    window_start := -3600, window_end := 0 }

/-- A sample cluster-summary row (cluster 7, version 1, active), used to
instantiate theorems on concrete inputs. -/
def sampleSummary : ClusterSummaryM :=
  { id := 1, cluster_id := 7, version := 1, is_active := true }

/-- A sample trend-metric row with fewer than 3 documents, used to
instantiate theorems on concrete inputs. -/
def sampleMetricSmall : TrendMetricM :=
  { ts := 0, cluster_id := 7, run_id := 3, doc_count := some 2,
    unique_sources := some 1, velocity := some 50, acceleration := some 9,
    novelty := some 1 }

/-! ## Theorems -/

-- RFC 7693 appendix A test vector: BLAKE2b-512("abc").
example : blake2b [] [0x61, 0x62, 0x63] 64 =
    [0xBA, 0x80, 0xA5, 0x3F, 0x98, 0x1C, 0x4D, 0x0D, 0x6A, 0x27, 0x97, 0xB6,
     0x9F, 0x12, 0xF6, 0xE9, 0x4C, 0x21, 0x2F, 0x14, 0x68, 0x5A, 0xC4, 0xB7,
     0x4B, 0x12, 0xBB, 0x6F, 0xDB, 0xFF, 0xA2, 0xD1, 0x7D, 0x87, 0xC5, 0x39,
     0x2A, 0xAB, 0x79, 0x2D, 0xC2, 0x52, 0xD5, 0xDE, 0x45, 0x33, 0xCC, 0x95,
     0x18, 0xD3, 0x8A, 0xA8, 0xDB, 0xF1, 0x92, 0x5A, 0xB9, 0x23, 0x86, 0xED,
     0xD4, 0x00, 0x99, 0x23] := by decide

-- hashlib.blake2b(b"a", digest_size=8).digest() = 40 f8 9e 39 5b 66 42 2f
example : content_hash [0x61] = [0x40, 0xF8, 0x9E, 0x39, 0x5B, 0x66, 0x42, 0x2F] := by
  decide

-- hashlib.blake2b(b"", digest_size=8) = e4 a6 a0 57 74 79 b2 b4
example : content_hash [] = [0xE4, 0xA6, 0xA0, 0x57, 0x74, 0x79, 0xB2, 0xB4] := by
  decide

-- hashlib.blake2b(b"x"*130, digest_size=8) = c7 e6 bc b2 40 e2 ec 15 (two blocks)
example : content_hash (List.replicate 130 0x78) =
    [0xC7, 0xE6, 0xBC, 0xB2, 0x40, 0xE2, 0xEC, 0x15] := by decide

-- hashlib.blake2b(b"a", digest_size=8, key=b"k") = 62 45 30 3f 83 c1 a9 d3
example : blake2b [0x6B] [0x61] 8 = [0x62, 0x45, 0x30, 0x3F, 0x83, 0xC1, 0xA9, 0xD3] := by
  decide

example : utf8Encode "a" = [0x61] := by decide

lemma wordBytes_length (w : Nat) : (wordBytes w).length = 8 := by
  simp [wordBytes]

lemma blake2bCompress_length (h m : List Nat) (t : Nat) (b : Bool) :
    (blake2bCompress h m t b).length = 8 := by
  simp [blake2bCompress]

lemma foldl_length_eight {β : Type} (f : List Nat → β → List Nat)
    (hf : ∀ acc i, (f acc i).length = 8) :
    ∀ (l : List β) (h : List Nat), h.length = 8 → (l.foldl f h).length = 8
  | [], _, hh => hh
  | a :: as, h, _ => by
      rw [List.foldl_cons]
      exact foldl_length_eight f hf as (f h a) (hf h a)

lemma blake2bFinalState_length (key data : List Nat) (nn : Nat) :
    (blake2bFinalState key data nn).length = 8 := by
  simp only [blake2bFinalState]
  apply foldl_length_eight
  · intro acc i
    dsimp only
    split <;> split <;> exact blake2bCompress_length ..
  · simp [wset, blake2bIV]

lemma blake2b_length (key data : List Nat) {nn : Nat} (h : nn ≤ 64) :
    (blake2b key data nn).length = nn := by
  unfold blake2b
  rw [List.length_take, List.length_flatten, List.map_map]
  have hc : (List.length ∘ wordBytes) = Function.const Nat 8 :=
    funext fun w => wordBytes_length w
  rw [hc, List.map_const, blake2bFinalState_length, List.sum_replicate]
  simp only [smul_eq_mul]
  omega

/-- **C6, counterexample.** The claim reads `content_hash` as a *keyed*
BLAKE2b digest *truncated* to 8 bytes.  The code passes no key
(`hashlib.blake2b`'s default key is empty, which is unkeyed hashing), and
`digest_size=8` is a parameter of the hash, not a truncation: already on
the one-byte text "a" the first 8 bytes of the (unkeyed) full-length
BLAKE2b digest differ from what the code computes. -/
theorem c6_counterexample :
    content_hash (utf8Encode "a") ≠ content_hash_claimed (utf8Encode "a") := by
  decide

/-- **C6 (amended).** `content_hash(text)` is the *unkeyed* BLAKE2b hash
with digest-size parameter 8 bytes (64 bits) of the UTF-8 encoding of the
extracted plain text: every article row freshly stored by
`process_article_url` carries exactly that 8-byte digest of its own text. -/
theorem c6_content_hash_blake2b64
    (db : List ArticleM) (source_id : Nat) (url text_content : String)
    (simhash_value next_id : Nat) (now : ℚ)
    (out : InsertOutcome) (db2 : List ArticleM) (jobs : List Job)
    (h : process_article_store db source_id url text_content simhash_value
          next_id now = (out, db2, jobs)) :
    ∀ a ∈ db2, a ∉ db →
      a.hash_64 = blake2b [] (utf8Encode a.text_content) 8 ∧
      a.hash_64.length = 8 := by
  intro a ha hnot
  unfold process_article_store at h
  cases hurl : db.find? (fun a => a.url == url) with
  | some existing =>
    rw [hurl] at h
    simp only [Prod.mk.injEq] at h
    obtain ⟨-, h2, -⟩ := h
    exact absurd (h2 ▸ ha) hnot
  | none =>
    rw [hurl] at h
    simp only at h
    cases hsim : (db.filter (fun a => a.source_id == source_id &&
        a.simhash_64.isSome)).find? (fun a =>
        decide (hamming_distance (a.simhash_64.getD 0) simhash_value ≤ 3)) with
    | some dup =>
      rw [hsim] at h
      simp only [Prod.mk.injEq] at h
      obtain ⟨-, h2, -⟩ := h
      exact absurd (h2 ▸ ha) hnot
    | none =>
      rw [hsim] at h
      simp only [Prod.mk.injEq] at h
      obtain ⟨-, h2, -⟩ := h
      subst h2
      rcases List.mem_append.1 ha with hin | hin
      · exact absurd hin hnot
      · rcases List.mem_singleton.1 hin with rfl
        exact ⟨rfl, blake2b_length [] _ (by omega)⟩

/-- **C6, witness.** The amended theorem applied to inserting the text
"a" into an empty store. -/
theorem c6_witness :
    ({ id := 1, source_id := 5, url := "u", simhash_64 := some 0,
       hash_64 := content_hash (utf8Encode "a"), text_content := "a",
       created_at := 0 } : ArticleM).hash_64 =
        blake2b [] (utf8Encode "a") 8 ∧
    ({ id := 1, source_id := 5, url := "u", simhash_64 := some 0,
       hash_64 := content_hash (utf8Encode "a"), text_content := "a",
       created_at := 0 } : ArticleM).hash_64.length = 8 :=
  c6_content_hash_blake2b64 [] 5 "u" "a" 0 1 0 _ _ _ rfl _
    (by simp [process_article_store]) (by simp)

/-- **C3.** Article insertion checks URL uniqueness first (a second
insert of an already-present URL returns `duplicate` with the existing
article's id and changes nothing), and otherwise scans the source's
non-null simhashes: if the store holds an article of the same source
whose 64-bit SimHash is within Hamming distance 3 of the new one, the
insertion returns `duplicate` of such an article (the first one in scan
order) and inserts no new Article row and enqueues nothing. -/
theorem c3_dedup_url_then_simhash
    (db : List ArticleM) (source_id : Nat) (url text_content : String)
    (simhash_value next_id : Nat) (now : ℚ) :
    (∀ first, db.find? (fun a => a.url == url) = some first →
      process_article_store db source_id url text_content simhash_value
          next_id now = (.duplicate first.id, db, [])) ∧
    (db.find? (fun a => a.url == url) = none →
      ∀ A ∈ db, A.source_id = source_id →
      ∀ h1, A.simhash_64 = some h1 → hamming_distance h1 simhash_value ≤ 3 →
      ∃ d ∈ db, ∃ hd, d.source_id = source_id ∧ d.simhash_64 = some hd ∧
        hamming_distance hd simhash_value ≤ 3 ∧
        process_article_store db source_id url text_content simhash_value
            next_id now = (.duplicate d.id, db, [])) := by
  constructor
  · intro first hfind
    unfold process_article_store
    rw [hfind]
  · intro hnone A hA hsrc h1 hsim hham
    unfold process_article_store
    rw [hnone]
    simp only
    cases hc : (db.filter (fun a => a.source_id == source_id &&
        a.simhash_64.isSome)).find? (fun a =>
        decide (hamming_distance (a.simhash_64.getD 0) simhash_value ≤ 3)) with
    | none =>
      exfalso
      rw [List.find?_eq_none] at hc
      refine hc A ?_ ?_
      · exact List.mem_filter.2 ⟨hA, by simp [hsrc, hsim]⟩
      · simp [hsim, hham]
    | some d =>
      have hdc := List.mem_of_find?_eq_some hc
      rw [List.mem_filter] at hdc
      obtain ⟨hdb, hb⟩ := hdc
      simp only [Bool.and_eq_true, beq_iff_eq, Option.isSome_iff_exists] at hb
      obtain ⟨hdsrc, hd, hdval⟩ := hb
      have hp := List.find?_some hc
      rw [hdval] at hp
      simp only [Option.getD_some, decide_eq_true_eq] at hp
      exact ⟨d, hdb, hd, hdsrc, hdval, hp, rfl⟩

/-- **C3, witness.** A store holding one article of source 5 with SimHash
6; inserting a new text of the same source with SimHash 7 (Hamming
distance 1) under a fresh URL is reported as a duplicate of it, and
inserting under the existing URL is reported as a duplicate as well. -/
theorem c3_witness :
    (∃ d ∈ [sampleArticle], ∃ hd, d.source_id = 5 ∧ d.simhash_64 = some hd ∧
        hamming_distance hd 7 ≤ 3 ∧
        process_article_store [sampleArticle] 5 "u2" "s" 7 2 0 =
          (.duplicate d.id, [sampleArticle], [])) ∧
    process_article_store [sampleArticle] 5 "u1" "s" 99 2 0 =
      (.duplicate 1, [sampleArticle], []) := by
  constructor
  · exact (c3_dedup_url_then_simhash [sampleArticle] 5 "u2" "s" 7 2 0).2
      (by decide) sampleArticle (by simp) rfl 6 rfl (by decide)
  · exact (c3_dedup_url_then_simhash [sampleArticle] 5 "u1" "s" 99 2 0).1
      sampleArticle (by decide)

/-- **C10.** When `process_article_url` ends with a duplicate result the
store is unchanged and no follow-up job is enqueued; the embed-and-cluster
and search-index jobs are submitted exactly on a successful fresh insert,
for the freshly inserted article. -/
theorem c10_duplicate_frame
    (db : List ArticleM) (source_id : Nat) (url text_content : String)
    (simhash_value next_id : Nat) (now : ℚ)
    (out : InsertOutcome) (db2 : List ArticleM) (jobs : List Job)
    (h : process_article_store db source_id url text_content simhash_value
          next_id now = (out, db2, jobs)) :
    (∀ i, out = .duplicate i → db2 = db ∧ jobs = []) ∧
    (∀ i, out = .stored i →
      i = next_id ∧
      db2 = db ++ [{ id := next_id, source_id := source_id, url := url,
                     simhash_64 := some simhash_value,
                     hash_64 := content_hash (utf8Encode text_content),
                     text_content := text_content, created_at := now }] ∧
      jobs = [Job.embedAndCluster next_id, Job.searchIndex next_id]) := by
  unfold process_article_store at h
  cases hurl : db.find? (fun a => a.url == url) with
  | some existing =>
    rw [hurl] at h
    simp only [Prod.mk.injEq] at h
    obtain ⟨ho, h2, h3⟩ := h
    subst ho; subst h2; subst h3
    constructor
    · intro i _
      exact ⟨rfl, rfl⟩
    · intro i hi
      exact InsertOutcome.noConfusion hi
  | none =>
    rw [hurl] at h
    simp only at h
    cases hsim : (db.filter (fun a => a.source_id == source_id &&
        a.simhash_64.isSome)).find? (fun a =>
        decide (hamming_distance (a.simhash_64.getD 0) simhash_value ≤ 3)) with
    | some dup =>
      rw [hsim] at h
      simp only [Prod.mk.injEq] at h
      obtain ⟨ho, h2, h3⟩ := h
      subst ho; subst h2; subst h3
      constructor
      · intro i _
        exact ⟨rfl, rfl⟩
      · intro i hi
        exact InsertOutcome.noConfusion hi
    | none =>
      rw [hsim] at h
      simp only [Prod.mk.injEq] at h
      obtain ⟨ho, h2, h3⟩ := h
      subst ho; subst h2; subst h3
      constructor
      · intro i hi
        exact InsertOutcome.noConfusion hi
      · intro i hi
        cases hi
        exact ⟨rfl, rfl, rfl⟩

/-- **C10, witness.** Submitting the URL of an already-stored article:
the store stays as it was and the job list is empty. -/
theorem c10_witness :
    [sampleArticle] = [sampleArticle] ∧ (([] : List Job) = []) :=
  (c10_duplicate_frame [sampleArticle] 5 "u1" "t2" 9 2 0 _ _ _ (by decide)).1
    1 rfl

lemma detect_anomaly_suppressed (velocity acceleration : ℚ) (doc_count : Nat)
    (h : doc_count < 3) :
    detect_anomaly velocity acceleration doc_count = (false, 0, "low") := by
  simp only [detect_anomaly]
  rw [if_pos h]

lemma detect_anomaly_eq (velocity acceleration : ℚ) (doc_count : Nat)
    (h : 3 ≤ doc_count) :
    detect_anomaly velocity acceleration doc_count =
      (if 3 ≤ velocity ∨ 2 ≤ acceleration then true else false,
       velocity + 2 * |acceleration|,
       severity_by_velocity velocity) := by
  simp only [detect_anomaly, severity_by_velocity]
  rw [if_neg (by omega : ¬doc_count < 3)]
  by_cases h1 : 3 ≤ velocity ∨ 2 ≤ acceleration
  · rw [if_neg (not_not_intro h1), if_pos h1]
    split_ifs <;> rfl
  · have hv : ¬(3 : ℚ) ≤ velocity := fun hvv => h1 (Or.inl hvv)
    rw [if_pos h1, if_neg h1]
    split_ifs with h30 h15 h7
    · exact absurd (by linarith : (3 : ℚ) ≤ velocity) hv
    · exact absurd (by linarith : (3 : ℚ) ≤ velocity) hv
    · exact absurd (by linarith : (3 : ℚ) ≤ velocity) hv
    · rfl

lemma detect_step_skip_small (timestamp : ℚ) (st : DetectState)
    (p : Nat × TrendMetricM) (h : p.2.doc_count.getD 0 < 3) :
    detect_step timestamp st p = st := by
  simp only [detect_step]
  split
  · rfl
  · rw [detect_anomaly_suppressed _ _ _ h]

/-- **C4.** `detect_anomaly` suppresses every cluster whose metric has
`doc_count < 3` (and the detector body then leaves state, events, and bus
untouched, whatever the velocity); for `doc_count ≥ 3` the score is
`velocity + 2·|acceleration|`, the anomaly flag is set iff
`velocity ≥ 3` or `acceleration ≥ 2`, and the severity follows the
velocity ladder (≥30 critical, ≥15 high, ≥7 medium, else low). -/
theorem c4_anomaly_rules :
    (∀ (velocity acceleration : ℚ) (doc_count : Nat),
      (doc_count < 3 →
        detect_anomaly velocity acceleration doc_count = (false, 0, "low")) ∧
      (3 ≤ doc_count →
        detect_anomaly velocity acceleration doc_count =
          (if 3 ≤ velocity ∨ 2 ≤ acceleration then true else false,
           velocity + 2 * |acceleration|,
           severity_by_velocity velocity))) ∧
    (∀ (timestamp : ℚ) (st : DetectState) (p : Nat × TrendMetricM),
      p.2.doc_count.getD 0 < 3 → detect_step timestamp st p = st) :=
  ⟨fun velocity acceleration doc_count =>
    ⟨detect_anomaly_suppressed velocity acceleration doc_count,
     detect_anomaly_eq velocity acceleration doc_count⟩,
   detect_step_skip_small⟩

/-- **C4, witness.** A metric with 2 documents and velocity 50 is
suppressed and the detector body is the identity on it; a metric with 10
documents, velocity 10 and acceleration 3 is flagged with score 16 and
severity medium. -/
theorem c4_witness :
    detect_anomaly 50 9 2 = (false, 0, "low") ∧
    detect_anomaly 10 3 10 =
      (if (3 : ℚ) ≤ 10 ∨ (2 : ℚ) ≤ 3 then true else false,
       10 + 2 * |(3 : ℚ)|, severity_by_velocity 10) ∧
    detect_step 0 ⟨[], [], 1⟩ (7, sampleMetricSmall) = ⟨[], [], 1⟩ :=
  ⟨(c4_anomaly_rules.1 50 9 2).1 (by omega),
   (c4_anomaly_rules.1 10 3 10).2 (by omega),
   c4_anomaly_rules.2 0 ⟨[], [], 1⟩ (7, sampleMetricSmall) (by decide)⟩

lemma most_recent_mem :
    ∀ {l : List TrendMetricM} {m : TrendMetricM}, most_recent l = some m → m ∈ l := by
  intro l
  induction l with
  | nil => intro m h; cases h
  | cons a as ih =>
    intro m h
    simp only [most_recent] at h
    cases hr : most_recent as with
    | none =>
      rw [hr] at h
      cases h
      exact List.mem_cons_self ..
    | some m2 =>
      rw [hr] at h
      dsimp only at h
      by_cases hlt : a.ts < m2.ts
      · rw [if_pos hlt] at h
        cases h
        exact List.mem_cons_of_mem _ (ih hr)
      · rw [if_neg hlt] at h
        cases h
        exact List.mem_cons_self ..

lemma most_recent_eq_of_max {l : List TrendMetricM} {x : TrendMetricM}
    (hx : x ∈ l) (hmax : ∀ y ∈ l, y = x ∨ y.ts < x.ts) :
    most_recent l = some x := by
  induction l with
  | nil => cases hx
  | cons a as ih =>
    simp only [most_recent]
    rcases List.mem_cons.1 hx with rfl | hxas
    · cases hr : most_recent as with
      | none => rfl
      | some m2 =>
        have hm2 : m2 ∈ as := most_recent_mem hr
        dsimp only
        rcases hmax m2 (List.mem_cons_of_mem _ hm2) with rfl | hlt
        · rw [if_neg (lt_irrefl _)]
        · rw [if_neg (not_lt.mpr hlt.le)]
    · have ha := hmax a (List.mem_cons_self ..)
      have ih2 := ih hxas (fun y hy => hmax y (List.mem_cons_of_mem _ hy))
      rw [ih2]
      dsimp only
      rcases ha with rfl | hlt
      · rw [if_neg (lt_irrefl _)]
      · rw [if_pos hlt]

/-- **C7.** `calculate_acceleration` returns 0 when no TrendMetric of the
(cluster, run) lies in `[ts - 2h, ts)`; otherwise, with `previous` the
most recent such metric (and its velocity present), it returns
`(current_velocity - previous.velocity) / Δt_hours` where `Δt_hours =
(ts - previous.ts) / 3600`. -/
theorem c7_acceleration (metrics : List TrendMetricM) (cluster_id run_id : Nat)
    (current_velocity timestamp : ℚ) :
    ((∀ m ∈ metrics, ¬(m.cluster_id = cluster_id ∧ m.run_id = run_id ∧
        m.ts < timestamp ∧ timestamp - 7200 ≤ m.ts)) →
      calculate_acceleration metrics cluster_id run_id current_velocity
        timestamp = 0) ∧
    (∀ prev ∈ metrics,
      prev.cluster_id = cluster_id → prev.run_id = run_id →
      prev.ts < timestamp → timestamp - 7200 ≤ prev.ts →
      (∀ m ∈ metrics, m.cluster_id = cluster_id → m.run_id = run_id →
        m.ts < timestamp → timestamp - 7200 ≤ m.ts → m = prev ∨ m.ts < prev.ts) →
      ∀ pv, prev.velocity = some pv →
      calculate_acceleration metrics cluster_id run_id current_velocity
          timestamp =
        (current_velocity - pv) / ((timestamp - prev.ts) / 3600)) := by
  constructor
  · intro hnone
    simp only [calculate_acceleration]
    have hnil : metrics.filter (fun m =>
        m.cluster_id == cluster_id && m.run_id == run_id &&
        decide (m.ts < timestamp) && decide (timestamp - 7200 ≤ m.ts)) = [] := by
      rw [List.filter_eq_nil_iff]
      intro m hm
      have := hnone m hm
      simp only [Bool.and_eq_true, beq_iff_eq, decide_eq_true_eq, not_and] at this ⊢
      tauto
    rw [hnil]
    rfl
  · intro prev hprev hc hr hlt hge hmax pv hpv
    simp only [calculate_acceleration]
    have hmem : prev ∈ metrics.filter (fun m =>
        m.cluster_id == cluster_id && m.run_id == run_id &&
        decide (m.ts < timestamp) && decide (timestamp - 7200 ≤ m.ts)) :=
      List.mem_filter.2 ⟨hprev, by simp [hc, hr, hlt, hge]⟩
    have hrec : most_recent (metrics.filter (fun m =>
        m.cluster_id == cluster_id && m.run_id == run_id &&
        decide (m.ts < timestamp) && decide (timestamp - 7200 ≤ m.ts))) =
        some prev := by
      apply most_recent_eq_of_max hmem
      intro y hy
      rw [List.mem_filter] at hy
      obtain ⟨hy1, hy2⟩ := hy
      simp only [Bool.and_eq_true, beq_iff_eq, decide_eq_true_eq] at hy2
      exact hmax y hy1 hy2.1.1.1 hy2.1.1.2 hy2.1.2 hy2.2
    rw [hrec]
    dsimp only
    rw [hpv]
    dsimp only
    rw [if_neg (div_pos (by linarith) (by norm_num)).ne']

/-- **C7, witness.** With a single previous metric at ts 0 of velocity 4
and the tick at ts 1800 (half an hour later) with current velocity 10,
the acceleration is `(10 - 4) / ((1800 - 0) / 3600)`. -/
theorem c7_witness :
    calculate_acceleration [sampleMetric] 7 3 10 1800 =
      (10 - 4) / ((1800 - sampleMetric.ts) / 3600) :=
  (c7_acceleration [sampleMetric] 7 3 10 1800).2 sampleMetric (by simp)
    rfl rfl (by norm_num [sampleMetric]) (by norm_num [sampleMetric])
    (by intro m hm _ _ _ _; simp at hm; exact Or.inl hm) 4 rfl

lemma summarize_map_cluster (cluster_id : Nat) (t : ClusterSummaryM) :
    (if t.cluster_id == cluster_id then { t with is_active := false }
     else t).cluster_id = t.cluster_id := by
  split <;> rfl

lemma summarize_map_eq_of_ne (cluster_id : Nat) (t : ClusterSummaryM)
    (h : t.cluster_id ≠ cluster_id) :
    (if t.cluster_id == cluster_id then { t with is_active := false }
     else t) = t := by
  rw [if_neg (by simpa using h)]

lemma summarize_deactivated_inactive (summaries : List ClusterSummaryM)
    (cluster_id : Nat) :
    ∀ s ∈ summaries.map (fun s =>
      if s.cluster_id == cluster_id then { s with is_active := false } else s),
      s.cluster_id = cluster_id → s.is_active = false := by
  intro s hs hc
  rw [List.mem_map] at hs
  obtain ⟨t, ht, rfl⟩ := hs
  split
  · rfl
  · next h =>
    rw [if_neg h] at hc
    exact absurd hc (by simpa using h)

/-- **C8.** After a successful summarisation of a cluster: the newly
stored summary (the appended row) has `version = max(existing) + 1` and
`is_active = true`; every other row of the cluster is inactive; the
"at most one active summary per cluster" invariant holds for the touched
cluster unconditionally and is preserved for every other cluster. -/
theorem c8_summary_swap (summaries : List ClusterSummaryM)
    (cluster_id new_id : Nat) :
    (summarize_cluster_store summaries cluster_id new_id).getLast? =
      some { id := new_id, cluster_id := cluster_id,
             version := max_version summaries cluster_id + 1,
             is_active := true } ∧
    (∀ s ∈ summarize_cluster_store summaries cluster_id new_id,
      s.cluster_id = cluster_id → s.id ≠ new_id → s.is_active = false) ∧
    activeAtMostOne (summarize_cluster_store summaries cluster_id new_id)
      cluster_id ∧
    (∀ c, c ≠ cluster_id → activeAtMostOne summaries c →
      activeAtMostOne (summarize_cluster_store summaries cluster_id new_id) c) := by
  refine ⟨?_, ?_, ?_, ?_⟩
  · simp only [summarize_cluster_store]
    exact List.getLast?_concat _
  · intro s hs hc hid
    simp only [summarize_cluster_store] at hs
    rcases List.mem_append.1 hs with hin | hin
    · exact summarize_deactivated_inactive summaries cluster_id s hin hc
    · rcases List.mem_singleton.1 hin with rfl
      exact absurd rfl hid
  · simp only [summarize_cluster_store, activeAtMostOne]
    rw [List.pairwise_append]
    refine ⟨?_, List.pairwise_singleton .. , ?_⟩
    · apply List.pairwise_of_forall_mem_list
      intro a ha b hb hac hbc habs
      exact absurd (summarize_deactivated_inactive _ _ a ha hac)
        (by simp [habs.1])
    · intro a ha b hb hac hbc habs
      exact absurd (summarize_deactivated_inactive _ _ a ha hac)
        (by simp [habs.1])
  · intro c hc hprev
    simp only [summarize_cluster_store, activeAtMostOne]
    rw [List.pairwise_append]
    refine ⟨?_, List.pairwise_singleton .. , ?_⟩
    · rw [List.pairwise_map]
      unfold activeAtMostOne at hprev
      refine hprev.imp ?_
      intro a b hR h1 h2
      rw [summarize_map_cluster] at h1 h2
      have hane : a.cluster_id ≠ cluster_id := by rw [h1]; exact hc
      have hbne : b.cluster_id ≠ cluster_id := by rw [h2]; exact hc
      rw [summarize_map_eq_of_ne cluster_id a hane,
          summarize_map_eq_of_ne cluster_id b hbne]
      exact hR h1 h2
    · intro a ha b hb h1 h2
      rcases List.mem_singleton.1 hb with rfl
      exact absurd h2.symm hc

/-- **C8, witness.** A cluster with one active version-1 summary: after
re-summarisation the new row is version 2 and active, and the cluster
still has at most one active summary. -/
theorem c8_witness :
    (summarize_cluster_store [sampleSummary] 7 2).getLast? =
      some { id := 2, cluster_id := 7,
             version := max_version [sampleSummary] 7 + 1,
             is_active := true } ∧
    activeAtMostOne (summarize_cluster_store [sampleSummary] 7 2) 7 :=
  ⟨(c8_summary_swap [sampleSummary] 7 2).1,
   (c8_summary_swap [sampleSummary] 7 2).2.2.1⟩

lemma detect_step_gap (timestamp : ℚ) (st : DetectState)
    (p : Nat × TrendMetricM) (h : eventGapOK st.events) :
    eventGapOK (detect_step timestamp st p).events := by
  simp only [detect_step]
  split
  · exact h
  · next hnot =>
    simp only [List.any_eq_true, Bool.and_eq_true, beq_iff_eq,
      decide_eq_true_eq, not_exists, not_and] at hnot
    rcases hda : detect_anomaly (p.2.velocity.getD 0) (p.2.acceleration.getD 0)
        (p.2.doc_count.getD 0) with ⟨b, score, severity⟩
    cases b
    · exact h
    · simp only [eventGapOK] at h ⊢
      rw [List.pairwise_append]
      refine ⟨h, List.pairwise_singleton .., ?_⟩
      intro a ha b hb hcl
      rcases List.mem_singleton.1 hb with rfl
      have hlt : ¬(timestamp - 1800 ≤ a.detected_at) := hnot a ha (by exact hcl)
      rw [abs_sub_comm, abs_of_nonneg (by linarith)]
      linarith

lemma detect_fold_gap (timestamp : ℚ) :
    ∀ (l : List (Nat × TrendMetricM)) (st : DetectState),
      eventGapOK st.events →
      eventGapOK ((l.foldl (detect_step timestamp) st)).events
  | [], _, h => h
  | p :: ps, st, h => by
      rw [List.foldl_cons]
      exact detect_fold_gap timestamp ps _ (detect_step_gap timestamp st p h)

/-- **C5.** The detector never lets two events of one cluster come closer
than 30 minutes: a cluster is skipped whenever any event for it has
`detected_at ≥ now − 30m` (the check also sees rows added earlier in the
same run), so if the events table satisfies the cooldown invariant before
a detector run, it satisfies it after. -/
theorem c5_cooldown_invariant (events : List EventM) (nextEventId : Nat)
    (timestamp : ℚ) (metrics : List TrendMetricM)
    (h : eventGapOK events) :
    eventGapOK (detect_events events nextEventId timestamp metrics).events := by
  simp only [detect_events]
  exact detect_fold_gap timestamp _ _ h

/-- **C5, witness.** One prior event and a fresh anomalous metric for
another cluster: the cooldown invariant holds after the detector run. -/
theorem c5_witness :
    eventGapOK (detect_events [sampleEvent] 2 1000 [sampleMetricHot]).events :=
  c5_cooldown_invariant [sampleEvent] 2 1000 [sampleMetricHot]
    (List.pairwise_singleton ..)

lemma detect_step_matches (timestamp : ℚ) (metrics : List TrendMetricM)
    (st : DetectState) (p : Nat × TrendMetricM) (hp : p.2 ∈ metrics)
    (h : published_matches_persisted metrics st) :
    published_matches_persisted metrics (detect_step timestamp st p) := by
  simp only [detect_step]
  split
  · exact h
  · rcases hda : detect_anomaly (p.2.velocity.getD 0) (p.2.acceleration.getD 0)
        (p.2.doc_count.getD 0) with ⟨b, score, severity⟩
    cases b
    · exact h
    · intro msg hmsg
      dsimp only at hmsg ⊢
      rcases List.mem_append.1 hmsg with hold | hnew
      · obtain ⟨e, he, hfields⟩ := h msg hold
        exact ⟨e, List.mem_append_left _ he, hfields⟩
      · rcases List.mem_singleton.1 hnew with rfl
        refine ⟨_, List.mem_append_right _ (List.mem_singleton.2 rfl),
          rfl, rfl, rfl, rfl, rfl, rfl, p.2, hp, rfl, rfl, rfl⟩

lemma detect_fold_matches (timestamp : ℚ) (metrics : List TrendMetricM) :
    ∀ (l : List (Nat × TrendMetricM)) (st : DetectState),
      (∀ p ∈ l, p.2 ∈ metrics) →
      published_matches_persisted metrics st →
      published_matches_persisted metrics
        ((l.foldl (detect_step timestamp) st))
  | [], _, _, h => h
  | p :: ps, st, hsub, h => by
      rw [List.foldl_cons]
      exact detect_fold_matches timestamp metrics ps _
        (fun q hq => hsub q (List.mem_cons_of_mem _ hq))
        (detect_step_matches timestamp metrics st p
          (hsub p (List.mem_cons_self ..)) h)

lemma groupLatest_aux (f : List (Nat × TrendMetricM) → TrendMetricM → Bool) :
    ∀ (l : List TrendMetricM) (acc : List (Nat × TrendMetricM))
      (p : Nat × TrendMetricM),
      p ∈ l.foldl (fun acc m => if f acc m then acc
        else acc ++ [(m.cluster_id, m)]) acc →
      p.2 ∈ l ∨ p ∈ acc
  | [], _, _, hp => Or.inr hp
  | m :: rest, acc, p, hp => by
      rw [List.foldl_cons] at hp
      rcases groupLatest_aux f rest _ p hp with hin | hin
      · exact Or.inl (List.mem_cons_of_mem _ hin)
      · split at hin
        · exact Or.inr hin
        · rcases List.mem_append.1 hin with hin | hin
          · exact Or.inr hin
          · rcases List.mem_singleton.1 hin with rfl
            exact Or.inl (List.mem_cons_self ..)

lemma groupLatest_mem {l : List TrendMetricM} {p : Nat × TrendMetricM}
    (hp : p ∈ groupLatest l) : p.2 ∈ l := by
  rcases groupLatest_aux _ l [] p hp with h | h
  · exact h
  · cases h

/-- **C9.** Every message published on the `"events"` topic during a
detector run has a persisted Event row with matching
`(id, cluster_id, severity, score)` (and label and detection time), and
the label is `"Trending: {velocity:.0f} articles/h"` with window
`[metric.ts − 1h, metric.ts]` for the metric that triggered it. -/
theorem c9_published_matches_persisted (events : List EventM)
    (nextEventId : Nat) (timestamp : ℚ) (metrics : List TrendMetricM) :
    published_matches_persisted metrics
      (detect_events events nextEventId timestamp metrics) := by
  simp only [detect_events]
  apply detect_fold_matches
  · intro p hp
    have h1 := groupLatest_mem hp
    rw [sortTsDesc, List.mem_insertionSort] at h1
    exact (List.mem_filter.1 h1).1
  · intro msg hmsg
    cases hmsg

/-- **C9, witness.** An empty events table and one hot metric (velocity
10, 5 documents): the single published message has a persisted row with
its id, cluster, severity `medium`, score 10, and the label
`"Trending: 10 articles/h"` with window `[900 − 3600, 900]`. -/
theorem c9_witness :
    ∃ e ∈ (detect_events [] 5 1000 [sampleMetricHot]).events,
      e.id = 5 ∧ e.cluster_id = 7 ∧ e.severity = "medium" ∧
      e.score = (10 : ℚ) ∧ e.label = "Trending: 10 articles/h" ∧
      e.detected_at = (1000 : ℚ) ∧
      ∃ m ∈ [sampleMetricHot], e.label = mkLabel (m.velocity.getD 0) ∧
        e.window_start = m.ts - 3600 ∧ e.window_end = m.ts := by
  have happ := c9_published_matches_persisted [] 5 1000 [sampleMetricHot]
    { event_id := 5, cluster_id := 7, severity := "medium",
      label := "Trending: 10 articles/h", score := 10, detected_at := 1000 }
    (by decide)
  exact happ

lemma findClusterLoop_eq (st : ClusterState) (run_id : Nat) (threshold : ℚ) :
    ∀ rows : List KnnRow,
      findClusterLoop st run_id threshold rows =
        match rows.find? (fun r => decide (threshold ≤ r.similarity) &&
            (cluster_of st run_id r.article_id).isSome) with
        | none => none
        | some r => (cluster_of st run_id r.article_id).map
            (fun c => (c, r.similarity))
  | [] => rfl
  | r :: rest => by
    simp only [findClusterLoop, List.find?_cons]
    by_cases hth : threshold ≤ r.similarity
    · rw [if_pos hth]
      cases hco : cluster_of st run_id r.article_id with
      | some c =>
        rw [decide_eq_true hth]
        simp only [Bool.true_and, Option.isSome_some]
        try dsimp only
        rw [hco]
        try rfl
      | none =>
        rw [decide_eq_true hth]
        simp only [Bool.true_and, Option.isSome_none]
        try dsimp only
        exact findClusterLoop_eq st run_id threshold rest
    · rw [if_neg hth, decide_eq_false hth]
      simp only [Bool.false_and]
      try dsimp only
      exact findClusterLoop_eq st run_id threshold rest

lemma knn_length (st : ClusterState) (dist : List ℚ → List ℚ → ℚ)
    (target : List ℚ) (space_id : Nat) (window_start : ℚ) (exclude : Nat) :
    (knn st dist target space_id window_start exclude).length ≤ 5 := by
  simp only [knn]
  exact List.length_take_le ..

lemma knn_mem (st : ClusterState) (dist : List ℚ → List ℚ → ℚ)
    (target : List ℚ) (space_id : Nat) (window_start : ℚ) (exclude : Nat) :
    ∀ r ∈ knn st dist target space_id window_start exclude,
      window_start ≤ r.created_at ∧ r.article_id ≠ exclude ∧
      r.similarity = 1 - r.distance := by
  intro r hr
  simp only [knn] at hr
  have hr2 := List.mem_of_mem_take hr
  rw [List.mem_insertionSort, List.mem_filterMap] at hr2
  obtain ⟨e, he, hfe⟩ := hr2
  split at hfe
  · next hcond =>
    simp only [Bool.and_eq_true, beq_iff_eq, bne_iff_ne] at hcond
    cases hfa : st.articles.find? (fun a => a.id == e.article_id) with
    | none => rw [hfa] at hfe; cases hfe
    | some a =>
      rw [hfa] at hfe
      dsimp only at hfe
      split at hfe
      · next hw =>
        cases hfe
        exact ⟨hw, hcond.2, rfl⟩
      · cases hfe
  · cases hfe

lemma knn_sorted (st : ClusterState) (dist : List ℚ → List ℚ → ℚ)
    (target : List ℚ) (space_id : Nat) (window_start : ℚ) (exclude : Nat) :
    (knn st dist target space_id window_start exclude).Pairwise
      (fun r1 r2 => r1.distance ≤ r2.distance) := by
  simp only [knn]
  apply List.Pairwise.sublist (List.take_sublist ..)
  haveI : IsTotal KnnRow (fun r1 r2 => r1.distance ≤ r2.distance) :=
    ⟨fun a b => le_total a.distance b.distance⟩
  haveI : IsTrans KnnRow (fun r1 r2 => r1.distance ≤ r2.distance) :=
    ⟨fun _ _ _ => le_trans⟩
  exact List.sorted_insertionSort ..

lemma insert_assignment_ok (assignments : List AssignM) (a : AssignM)
    (h : ∀ x ∈ assignments, ¬(x.run_id = a.run_id ∧ x.article_id = a.article_id)) :
    insert_assignment assignments a = .ok (assignments ++ [a]) := by
  simp only [insert_assignment]
  rw [if_neg]
  intro hany
  rw [List.any_eq_true] at hany
  obtain ⟨x, hx, hxp⟩ := hany
  simp only [Bool.and_eq_true, beq_iff_eq] at hxp
  exact h x hx ⟨hxp.1.1, hxp.2⟩

/-- **C1.** With an active run present, the embed-and-cluster worker
assigns the article to the cluster of the **first** kNN neighbour — the
kNN rows being at most 5 candidates with `created_at` inside the 48-hour
window, excluding the article itself, sorted by ascending cosine distance,
each reporting `similarity = 1 − distance` — whose similarity reaches the
run's threshold (`params["threshold"]`, default 0.80) and which has an
assignment in this run; the recorded similarity is that neighbour's.  If
no row qualifies, a new cluster is created with `window_start =
window_end = article.created_at` and the assignment records
similarity 1.0. -/
theorem c1_first_fit_assignment
    (st : ClusterState) (dist : List ℚ → List ℚ → ℚ) (article_id : Nat)
    (freshVec : List ℚ) (now : ℚ) (space_id : Nat)
    (article : ArticleM) (vec : List ℚ) (st1 : ClusterState)
    (run : ClusterRunM) (threshold : ℚ) (rows : List KnnRow)
    (hart : st.articles.find? (fun a => a.id == article_id) = some article)
    (htext : ¬article.text_content = "")
    (hp1 : phase1 st space_id article_id freshVec = (vec, st1))
    (hrun : active_run st1 space_id = some run)
    (hthr : threshold = run.threshold?.getD (4 / 5))
    (hrows : rows = knn st1 dist vec space_id (now - 172800) article_id)
    (hfree : ∀ x ∈ st1.assignments,
      ¬(x.run_id = run.id ∧ x.article_id = article_id)) :
    rows.length ≤ 5 ∧
    (∀ r ∈ rows, now - 172800 ≤ r.created_at ∧ r.article_id ≠ article_id ∧
      r.similarity = 1 - r.distance) ∧
    rows.Pairwise (fun r1 r2 => r1.distance ≤ r2.distance) ∧
    (∀ r, rows.find? (fun r => decide (threshold ≤ r.similarity) &&
        (cluster_of st1 run.id r.article_id).isSome) = some r →
      ∀ c, cluster_of st1 run.id r.article_id = some c →
      embed_and_cluster st dist article_id freshVec now space_id =
        .ok ({ st1 with
                assignments := st1.assignments ++
                  [⟨run.id, c, article_id, r.similarity⟩] }, some c)) ∧
    (rows.find? (fun r => decide (threshold ≤ r.similarity) &&
        (cluster_of st1 run.id r.article_id).isSome) = none →
      embed_and_cluster st dist article_id freshVec now space_id =
        .ok ({ st1 with
                clusters := st1.clusters ++
                  [⟨st1.nextClusterId, run.id, some article.created_at,
                    some article.created_at⟩],
                assignments := st1.assignments ++
                  [⟨run.id, st1.nextClusterId, article_id, 1⟩],
                nextClusterId := st1.nextClusterId + 1 },
             some st1.nextClusterId)) := by
  subst hthr
  subst hrows
  refine ⟨knn_length st1 dist vec space_id (now - 172800) article_id,
    knn_mem st1 dist vec space_id (now - 172800) article_id,
    knn_sorted st1 dist vec space_id (now - 172800) article_id, ?_, ?_⟩
  · intro r hfind c hco
    simp only [embed_and_cluster]
    rw [hart]
    try dsimp only
    rw [if_neg htext, hp1]
    try dsimp only
    rw [hrun]
    try dsimp only
    rw [findClusterLoop_eq, hfind]
    try dsimp only
    rw [hco]
    simp only [Option.map_some']
    try dsimp only
    rw [insert_assignment_ok _ _ hfree]
    try dsimp only
    try rfl
  · intro hnone
    simp only [embed_and_cluster]
    rw [hart]
    try dsimp only
    rw [if_neg htext, hp1]
    try dsimp only
    rw [hrun]
    try dsimp only
    rw [findClusterLoop_eq, hnone]
    try dsimp only
    rw [insert_assignment_ok _ _ hfree]
    try dsimp only
    try rfl

/-- **C1, witness.** Article 1 (not yet embedded) joins a space holding
article 2, assigned to cluster 10, at cosine distance 0 (similarity 1 ≥
the default threshold 0.8): the worker attaches article 1 to cluster 10
with similarity 1 − 0. -/
theorem c1_witness :
    embed_and_cluster assignState (fun _ _ => 0) 1 [1] 1000 7 =
      .ok ({ assignState1 with
              assignments := assignState1.assignments ++ [⟨3, 10, 1, 1⟩] },
           some 10) := by
  have h := c1_first_fit_assignment assignState (fun _ _ => 0) 1 [1] 1000 7
    sampleArticle [1] assignState1 ⟨3, 7, none, true⟩ (4 / 5)
    (knn assignState1 (fun _ _ => 0) [1] 7 (1000 - 172800) 1)
    (by decide) (by decide) (by decide) (by decide) rfl rfl (by decide)
  exact h.2.2.2.1 ⟨2, 0, 1, 0⟩ (by decide) 10 (by decide)

/-- **C2, code bug.** The spec states that re-executing embed-and-cluster
for an article that already has an assignment under the active run is a
no-op (idempotent by composite primary key; §4.D, §5 Ordering, §8).  The
code (tasks.py 510–518) neither looks up the article's existing
assignment nor handles the `IntegrityError`: replaying the sole article
of a space creates a second cluster (11) and a second ArticleCluster row
for the same (run, article) — violating spec §8 invariant 3 — and
replaying an article whose neighbour leads back to its own cluster
raises on the duplicate (run, cluster, article) key, failing the task. -/
theorem c2_replay_not_noop :
    (embed_and_cluster replayStateAlone (fun _ _ => 0) 1 [1] 1000 7 =
      .ok ({ replayStateAlone with
              clusters := replayStateAlone.clusters ++ [⟨11, 3, some 0, some 0⟩],
              assignments := replayStateAlone.assignments ++ [⟨3, 11, 1, 1⟩],
              nextClusterId := 12 },
           some 11)) ∧
    embed_and_cluster replayStatePair (fun _ _ => 0) 1 [1] 1000 7 =
      .error () := by
  constructor <;> decide

end

end Backend
